import Mathlib

/-!
Verification model of mongo ReadThroughCache (src/src/mongo/util/read_through_cache.h).

The file embeds the lookup-coordination state machine of the read-through cache: the
InProgressLookup coordinator (lines 414-465), the revalidation loop body
ReadThroughCache::_doLookupWhileNotValid (lines 340-369), and the public operations
acquireAsync (lines 214-241), insertOrAssignAndGet (lines 256-261) and invalidate
(lines 273-278).  Concurrency is embedded as a sequential interleaving semantics: every
mutex-protected critical section of the source is one atomic step, and the completion of a
scheduled lookup round is an explicit external event carrying the round's
StatusWith result.  Ghost instrumentation (generation ids, scheduling timestamps, a log
of signalWaiters calls) appears only in clearly marked ghost fields and is never read by
the modelled code paths.
-/

set_option maxHeartbeats 1000000

namespace Mongo

variable {Key Value : Type} [DecidableEq Key]

/-- Wall-clock timestamps (Date_t in the source), modelled as naturals. -/
abbrev Date := Nat

/-- Date_t::min(), the timestamp given by the pinning ValueHandle constructor (line 127). -/
def Date.min : Date := 0

/-- Model of a non-OK mongo Status: an error code plus whether the code belongs to the
CancelationError category, which is what ErrorCodes::isCancelationError tests. -/
structure Status where
  code : Nat
  cancelCategory : Bool
deriving DecidableEq

/-- Status(ErrorCodes::Error(461540), ...) with which acquireAsync enters the revalidation
loop (line 238); an anonymous code, not in the cancelation category. -/
def entrySentinel : Status :=
  { code := 461540, cancelCategory := false }

/-- Modelled from the spec: the status with which a scheduled lookup task completes when
tryCancel wins the race against execution.  ReadThroughCacheBase::_asyncWork and
CancelToken::tryCancel are declared on lines 66-79 but implemented outside src/; the
comment on lines 62-64 names the code ReadThroughCacheLookupCanceled and the spec (section
4.3, edge case policy) says a round canceled before it starts is treated identically to an
ordinary cancellation error at the round level, so the code is in the cancelation
category. -/
def lookupCanceledStatus : Status :=
  { code := 46, cancelCategory := true }

/-- ErrorCodes::isCancelationError(sw.getStatus()) as used on line 344; the status of an
OK StatusWith is Status::OK, which is in no error category. -/
def isCancelationError {α : Type} : Except Status α → Bool
  | Except.ok _ => false
  | Except.error st => st.cancelCategory

/-- Decidable equality of StatusWith results, needed to evaluate the model on concrete
inputs. -/
instance {ε α : Type} [DecidableEq ε] [DecidableEq α] : DecidableEq (Except ε α) :=
  fun a b =>
    match a, b with
    | Except.ok x, Except.ok y =>
      if h : x = y then isTrue (by rw [h])
      else isFalse (by intro hc; cases hc; exact h rfl)
    | Except.ok _, Except.error _ => isFalse (by intro hc; cases hc)
    | Except.error _, Except.ok _ => isFalse (by intro hc; cases hc)
    | Except.error x, Except.error y =>
      if h : x = y then isTrue (by rw [h])
      else isFalse (by intro hc; cases hc; exact h rfl)

/-- StoredValue (lines 108-115): the cached payload plus the best-effort wall-clock time
at which it was fetched. -/
structure StoredValue (Value : Type) where
  value : Value
  updateWallClockTime : Date
deriving DecidableEq

/-- ReadThroughCache::ValueHandle (lines 122-176) wraps the eviction-cache handle.
Modelled from the spec: the InvalidatingLRUCache handle type (invalidating_lru_cache.h is
not under src/) is either empty or refers to a stored entry. -/
structure ValueHandle (Value : Type) where
  handle : Option (StoredValue Value)
deriving DecidableEq

/-- Pinning constructor ValueHandle(Value&&) (line 127): wraps the given value with
timestamp Date_t::min().  It takes only the value: neither the eviction cache nor the
lookup function participates. -/
def ValueHandle.pinned (v : Value) : ValueHandle Value :=
  { handle := some { value := v, updateWallClockTime := Date.min } }

/-- Default constructor ValueHandle() (line 128): the empty, not-found handle. -/
def ValueHandle.empty : ValueHandle Value :=
  { handle := none }

/-- operator bool (lines 130-132): whether the underlying handle holds an entry. -/
def ValueHandle.toBool (h : ValueHandle Value) : Bool :=
  h.handle.isSome

/-- updateWallClockTime() (lines 165-167) dereferences the underlying handle, so it is
only defined on a set handle; the empty case is surfaced as none. -/
def ValueHandle.updateWallClockTime (h : ValueHandle Value) : Option Date :=
  h.handle.map StoredValue.updateWallClockTime

/-- LookupResult (lines 184-191): boost::none means the lookup function did not find the
key in the backing store. -/
structure LookupResult (Value : Type) where
  v : Option Value
deriving DecidableEq

/-- Model of the CancelToken of one scheduled lookup round.  scheduledAt is the ghost time
at which asyncLookupRound scheduled the round; cancelRequested records that tryCancel was
called on it. -/
structure CancelToken where
  scheduledAt : Nat
  cancelRequested : Bool
deriving DecidableEq

/-- InProgressLookup (lines 414-465): the per-key coordinator of an in-flight lookup.
valid, cancelToken and sharedPromise mirror the fields _valid, _cancelToken and
_sharedPromise; waiters counts the futures handed out by addWaiter, all subscribed to the
one shared promise.  genId and lastInvalidate are ghost instrumentation used only by
specifications: genId identifies this coordinator object, lastInvalidate records the time
of the most recent invalidateAndCancelCurrentLookupRound call on it. -/
structure InProgressLookup (Value : Type) where
  valid : Bool
  cancelToken : Option CancelToken
  sharedPromise : Option (Except Status (ValueHandle Value))
  waiters : Nat
  genId : Nat
  lastInvalidate : Option Nat
deriving DecidableEq

/-- Construction (line 417 with the field defaults of lines 461-464): _valid starts false,
no cancel token, unresolved shared promise, no waiters yet. -/
def InProgressLookup.create (g : Nat) : InProgressLookup Value :=
  { valid := false, cancelToken := none, sharedPromise := none, waiters := 0,
    genId := g, lastInvalidate := none }

/-- asyncLookupRound (lines 419-433): under the mutex sets _valid = true and installs the
CancelToken of the freshly scheduled round; waiters and the shared promise are
untouched. -/
def InProgressLookup.asyncLookupRound (l : InProgressLookup Value) (t : Nat) :
    InProgressLookup Value :=
  { l with valid := true,
           cancelToken := some { scheduledAt := t, cancelRequested := false } }

/-- addWaiter (lines 435-437): hands out one more future on the shared promise. -/
def InProgressLookup.addWaiter (l : InProgressLookup Value) : InProgressLookup Value :=
  { l with waiters := l.waiters + 1 }

/-- invalidateAndCancelCurrentLookupRound (lines 443-447): _valid = false and tryCancel on
the current round's token if one exists; waiters and the shared promise are untouched. -/
def InProgressLookup.invalidateAndCancelCurrentLookupRound (l : InProgressLookup Value)
    (t : Nat) : InProgressLookup Value :=
  { l with valid := false,
           cancelToken := l.cancelToken.map fun tok => { tok with cancelRequested := true },
           lastInvalidate := some t }

/-- signalWaiters (lines 449-452): invariant(_valid), then the shared promise is resolved
exactly once with the outcome.  The result is none exactly when the invariant fires, which
is fatal in the source. -/
def InProgressLookup.signalWaiters (l : InProgressLookup Value)
    (sw : Except Status (ValueHandle Value)) : Option (InProgressLookup Value) :=
  if l.valid then some { l with sharedPromise := some sw } else none

/-- Ghost record of one finalization of the revalidation loop (lines 350-366): the key,
the coordinator generation, the time at which the finalized round was scheduled, the
coordinator's lastInvalidate stamp, its waiter count, the outcome handed to signalWaiters,
and whether signalWaiters delivered it (true) or its invariant(_valid) fired (false). -/
structure SignalEntry (Key Value : Type) where
  key : Key
  genId : Nat
  roundScheduledAt : Nat
  lastInvalidate : Option Nat
  waiters : Nat
  outcome : Except Status (ValueHandle Value)
  delivered : Bool
deriving DecidableEq

/-- State of one ReadThroughCache: the eviction-cache contents (the InvalidatingLRUCache
is out of scope per the spec, modelled from the spec by its get/insert/invalidate contract
as a map), the in-progress-lookups map (line 387), a counter supplying fresh ghost
generation ids, the ghost log of signalWaiters calls, and whether an invariant() has
failed (which is process-fatal in the source). -/
structure CacheState (Key Value : Type) where
  cache : Key → Option (StoredValue Value)
  inProgress : Key → Option (InProgressLookup Value)
  nextGen : Nat
  signaled : List (SignalEntry Key Value)
  crashed : Bool

/-- The freshly constructed cache: both maps empty (lines 320-331). -/
def CacheState.start : CacheState Key Value :=
  { cache := fun _ => none, inProgress := fun _ => none, nextGen := 0, signaled := [],
    crashed := false }

/-- Pointwise map update. -/
def upd {α : Type} (f : Key → Option α) (k : Key) (v : Option α) : Key → Option α :=
  fun q => if q = k then v else f q

/-- Outcome placed in the waiters' StatusWith at finalization (lines 355-363): a
found value is wrapped in the handle of the entry just inserted with timestamp _now();
not-found yields the empty handle; a lookup error is carried through verbatim. -/
def lookupOutcome (sw : Except Status (LookupResult Value)) (t : Nat) :
    Except Status (ValueHandle Value) :=
  match sw with
  | Except.ok r =>
    match r.v with
    | some v => Except.ok { handle := some { value := v, updateWallClockTime := t } }
    | none => Except.ok { handle := none }
  | Except.error st => Except.error st

/-- Eviction-cache contents after finalization (lines 356-360): only a successful, found
lookup inserts (via insertOrAssignAndGet on the eviction cache, stamped _now()). -/
def cacheAfterLookup (c : Key → Option (StoredValue Value)) (k : Key)
    (sw : Except Status (LookupResult Value)) (t : Nat) : Key → Option (StoredValue Value) :=
  match sw with
  | Except.ok r =>
    match r.v with
    | some v => upd c k (some { value := v, updateWallClockTime := t })
    | none => c
  | Except.error _ => c

/-- Ghost log entry of the signalWaiters call made by one finalization. -/
def mkSignalEntry (k : Key) (l : InProgressLookup Value)
    (sw : Except Status (LookupResult Value)) (t : Nat) : SignalEntry Key Value :=
  { key := k, genId := l.genId,
    roundScheduledAt := (l.cancelToken.map CancelToken.scheduledAt).getD 0,
    lastInvalidate := l.lastInvalidate, waiters := l.waiters,
    outcome := lookupOutcome sw t,
    delivered := (l.signalWaiters (lookupOutcome sw t)).isSome }

/-- One turn of ReadThroughCache::_doLookupWhileNotValid (lines 340-369), entered with the
completion status sw of the previous round (or with Status(Error(461540)) from
acquireAsync, line 238) at ghost time t (used for _now() and scheduling stamps).  A
missing coordinator fires the invariant on line 343.  If sw is not a cancelation error and
the coordinator is not valid (line 344), a fresh round is scheduled via asyncLookupRound
(lines 345-347).  Otherwise the coordinator is detached and erased from the map, the
outcome is computed with a found value inserted into the cache (lines 350-363), and
signalWaiters is called with the outcome (line 366); a failure of its invariant(_valid) is
recorded in crashed. -/
def doLookupWhileNotValid (s : CacheState Key Value) (t : Nat) (k : Key)
    (sw : Except Status (LookupResult Value)) : CacheState Key Value :=
  match s.inProgress k with
  | none => { s with crashed := true }
  | some l =>
    if !(isCancelationError sw) && !l.valid then
      { s with inProgress := upd s.inProgress k (some (l.asyncLookupRound t)) }
    else
      { s with inProgress := upd s.inProgress k none,
               cache := cacheAfterLookup s.cache k sw t,
               signaled := s.signaled ++ [mkSignalEntry k l sw t],
               crashed := s.crashed || !(l.signalWaiters (lookupOutcome sw t)).isSome }

/-- What acquireAsync hands back to the caller: a cache hit handle, or the shared future
of the joined respectively newly created coordinator (identified by its ghost genId). -/
inductive AcquireResult (Value : Type) where
  | hit (h : ValueHandle Value)
  | joined (genId : Nat)
  | scheduled (genId : Nat)
deriving DecidableEq

/-- ReadThroughCache::acquireAsync (lines 214-241).  Fast path (line 216): a cache hit is
returned at once, no lock, no lookup.  Under the mutex the cache re-check (line 222)
coincides with the fast path in this sequential interleaving model.  An existing
coordinator is joined via addWaiter (lines 226-227).  Otherwise exactly one coordinator is
created and registered (lines 230-233), a waiter future is obtained (line 234), and after
releasing the lock the revalidation loop is entered with Status(Error(461540)) (line 238),
which - not a cancelation error, coordinator not yet valid - schedules the first round. -/
def acquireAsync (s : CacheState Key Value) (t : Nat) (k : Key) :
    CacheState Key Value × AcquireResult Value :=
  match s.cache k with
  | some sv => (s, AcquireResult.hit { handle := some sv })
  | none =>
    match s.inProgress k with
    | some l =>
      ({ s with inProgress := upd s.inProgress k (some l.addWaiter) },
       AcquireResult.joined l.genId)
    | none =>
      let l := (InProgressLookup.create s.nextGen : InProgressLookup Value).addWaiter
      let s1 : CacheState Key Value :=
        { s with inProgress := upd s.inProgress k (some l), nextGen := s.nextGen + 1 }
      (doLookupWhileNotValid s1 t k (Except.error entrySentinel),
       AcquireResult.scheduled s.nextGen)

/-- ReadThroughCache::invalidate (lines 273-278): under the mutex, invalidate and cancel
the coordinator's current round if one exists, then drop the key from the eviction
cache. -/
def invalidate (s : CacheState Key Value) (t : Nat) (k : Key) : CacheState Key Value :=
  let s1 : CacheState Key Value :=
    match s.inProgress k with
    | some l =>
      { s with inProgress := upd s.inProgress k (some (l.invalidateAndCancelCurrentLookupRound t)) }
    | none => s
  { s1 with cache := upd s1.cache k none }

/-- ReadThroughCache::insertOrAssignAndGet (lines 256-261): under the mutex, invalidate
the coordinator's current round if one exists (the coordinator itself stays on the map),
then overwrite the eviction-cache entry with the supplied value and timestamp and return
its handle. -/
def insertOrAssignAndGet (s : CacheState Key Value) (t : Nat) (k : Key) (v : Value)
    (tw : Date) : CacheState Key Value × ValueHandle Value :=
  let s1 : CacheState Key Value :=
    match s.inProgress k with
    | some l =>
      { s with inProgress := upd s.inProgress k (some (l.invalidateAndCancelCurrentLookupRound t)) }
    | none => s
  ({ s1 with cache := upd s1.cache k (some { value := v, updateWallClockTime := tw }) },
   { handle := some { value := v, updateWallClockTime := tw } })

/-- External events driving the interleaving model: the public calls, and the completion
of the currently scheduled lookup round of a key, carrying the round's StatusWith result
as chosen by the environment (the lookup function's value or not-found, its error, or the
cancelation status when tryCancel won the race against execution). -/
inductive Event (Key Value : Type) where
  | acquireAsync (k : Key)
  | invalidate (k : Key)
  | insertOrAssignAndGet (k : Key) (v : Value) (tw : Date)
  | roundComplete (k : Key) (sw : Except Status (LookupResult Value))

/-- One atomic step at ghost time t.  After an invariant failure the process is gone, so
no further transitions happen. -/
def step (s : CacheState Key Value) (t : Nat) : Event Key Value → CacheState Key Value :=
  fun e =>
    if s.crashed then s
    else
      match e with
      | Event.acquireAsync k => (acquireAsync s t k).1
      | Event.invalidate k => invalidate s t k
      | Event.insertOrAssignAndGet k v tw => (insertOrAssignAndGet s t k v tw).1
      | Event.roundComplete k sw => doLookupWhileNotValid s t k sw

/-- Run a list of events from a state, stamping each step with its position as time. -/
def runFrom (s : CacheState Key Value) (t : Nat) :
    List (Event Key Value) → CacheState Key Value
  | [] => s
  | e :: es => runFrom (step s t e) (t + 1) es

/-- Run a trace from the freshly constructed cache. -/
def run (es : List (Event Key Value)) : CacheState Key Value :=
  runFrom CacheState.start 0 es

/-- The coordinator as it stands right after a miss on key k created it and the first
round was scheduled: one waiter, valid, round stamped with the scheduling time. -/
def startedLookup (g t : Nat) : InProgressLookup Value :=
  { valid := true, cancelToken := some { scheduledAt := t, cancelRequested := false },
    sharedPromise := none, waiters := 1, genId := g, lastInvalidate := none }

/-! ### Evaluation lemmas for the modelled operations -/

@[simp]
theorem upd_same {α : Type} (f : Key → Option α) (k : Key) (v : Option α) :
    upd f k v k = v := by
  simp [upd]

theorem upd_ne {α : Type} (f : Key → Option α) {q k : Key} (v : Option α) (h : q ≠ k) :
    upd f k v q = f q := by
  simp [upd, h]

@[simp]
theorem upd_upd {α : Type} (f : Key → Option α) (k : Key) (v w : Option α) :
    upd (upd f k v) k w = upd f k w := by
  funext q
  by_cases h : q = k <;> simp [upd, h]

@[simp]
theorem signalWaiters_isSome (l : InProgressLookup Value)
    (sw : Except Status (ValueHandle Value)) :
    (l.signalWaiters sw).isSome = l.valid := by
  cases hv : l.valid <;> simp [InProgressLookup.signalWaiters, hv]

theorem doLookup_noCoordinator (s : CacheState Key Value) (t : Nat) (k : Key)
    (sw : Except Status (LookupResult Value)) (h : s.inProgress k = none) :
    doLookupWhileNotValid s t k sw = { s with crashed := true } := by
  simp [doLookupWhileNotValid, h]

theorem doLookup_retry (s : CacheState Key Value) (t : Nat) (k : Key)
    (sw : Except Status (LookupResult Value)) (l : InProgressLookup Value)
    (h : s.inProgress k = some l) (hc : isCancelationError sw = false)
    (hv : l.valid = false) :
    doLookupWhileNotValid s t k sw =
      { s with inProgress := upd s.inProgress k (some (l.asyncLookupRound t)) } := by
  simp [doLookupWhileNotValid, h, hc, hv]

theorem doLookup_finalize (s : CacheState Key Value) (t : Nat) (k : Key)
    (sw : Except Status (LookupResult Value)) (l : InProgressLookup Value)
    (h : s.inProgress k = some l) (hc : isCancelationError sw = true ∨ l.valid = true) :
    doLookupWhileNotValid s t k sw =
      { s with inProgress := upd s.inProgress k none,
               cache := cacheAfterLookup s.cache k sw t,
               signaled := s.signaled ++ [mkSignalEntry k l sw t],
               crashed := s.crashed || !l.valid } := by
  rcases hc with hc | hc
  · simp [doLookupWhileNotValid, h, hc]
  · simp [doLookupWhileNotValid, h, hc]

theorem acquireAsync_hit (s : CacheState Key Value) (t : Nat) (k : Key)
    (sv : StoredValue Value) (h : s.cache k = some sv) :
    acquireAsync s t k = (s, AcquireResult.hit { handle := some sv }) := by
  simp [acquireAsync, h]

theorem acquireAsync_join (s : CacheState Key Value) (t : Nat) (k : Key)
    (l : InProgressLookup Value) (hc : s.cache k = none) (hp : s.inProgress k = some l) :
    acquireAsync s t k =
      ({ s with inProgress := upd s.inProgress k (some l.addWaiter) },
       AcquireResult.joined l.genId) := by
  simp [acquireAsync, hc, hp]

theorem acquireAsync_miss (s : CacheState Key Value) (t : Nat) (k : Key)
    (hc : s.cache k = none) (hp : s.inProgress k = none) :
    acquireAsync s t k =
      ({ s with inProgress := upd s.inProgress k (some (startedLookup s.nextGen t)),
                nextGen := s.nextGen + 1 },
       AcquireResult.scheduled s.nextGen) := by
  simp [acquireAsync, hc, hp, doLookupWhileNotValid, isCancelationError, entrySentinel,
    InProgressLookup.create, InProgressLookup.addWaiter, InProgressLookup.asyncLookupRound,
    startedLookup]

theorem invalidate_coordinator (s : CacheState Key Value) (t : Nat) (k : Key)
    (l : InProgressLookup Value) (hp : s.inProgress k = some l) :
    invalidate s t k =
      { s with inProgress := upd s.inProgress k (some (l.invalidateAndCancelCurrentLookupRound t)),
               cache := upd s.cache k none } := by
  simp [invalidate, hp]

theorem invalidate_noCoordinator (s : CacheState Key Value) (t : Nat) (k : Key)
    (hp : s.inProgress k = none) :
    invalidate s t k = { s with cache := upd s.cache k none } := by
  simp [invalidate, hp]

theorem insertOrAssign_coordinator (s : CacheState Key Value) (t : Nat) (k : Key)
    (v : Value) (tw : Date) (l : InProgressLookup Value) (hp : s.inProgress k = some l) :
    insertOrAssignAndGet s t k v tw =
      ({ s with inProgress := upd s.inProgress k (some (l.invalidateAndCancelCurrentLookupRound t)),
                cache := upd s.cache k (some { value := v, updateWallClockTime := tw }) },
       { handle := some { value := v, updateWallClockTime := tw } }) := by
  simp [insertOrAssignAndGet, hp]

theorem insertOrAssign_noCoordinator (s : CacheState Key Value) (t : Nat) (k : Key)
    (v : Value) (tw : Date) (hp : s.inProgress k = none) :
    insertOrAssignAndGet s t k v tw =
      ({ s with cache := upd s.cache k (some { value := v, updateWallClockTime := tw }) },
       { handle := some { value := v, updateWallClockTime := tw } }) := by
  simp [insertOrAssignAndGet, hp]

/-! ### Claim theorems: loop condition, error handling, dispatch, insert, handles -/

/-- Claim C4: after a lookup round for a key holding a Coordinator completes with result
sw, the revalidation loop finalizes - removes the Coordinator from the in-progress map and
hands the computed outcome to signalWaiters - if and only if sw is a cancellation error or
the Coordinator is still valid; otherwise (round completed normally but invalidated
mid-flight) the result is discarded (no cache write, no signal) and another round is
scheduled on the same Coordinator, keeping its identity, its waiters and its shared
promise. -/
theorem revalidation_loop_condition (s : CacheState Key Value) (t : Nat) (k : Key)
    (sw : Except Status (LookupResult Value)) (l : InProgressLookup Value)
    (h : s.inProgress k = some l) :
    ((isCancelationError sw = true ∨ l.valid = true) ↔
        (doLookupWhileNotValid s t k sw).inProgress k = none)
    ∧ ((isCancelationError sw = true ∨ l.valid = true) →
        (doLookupWhileNotValid s t k sw).signaled = s.signaled ++ [mkSignalEntry k l sw t])
    ∧ (isCancelationError sw = false → l.valid = false →
        (doLookupWhileNotValid s t k sw).inProgress k = some (l.asyncLookupRound t)
        ∧ (l.asyncLookupRound t).genId = l.genId
        ∧ (l.asyncLookupRound t).waiters = l.waiters
        ∧ (l.asyncLookupRound t).sharedPromise = l.sharedPromise
        ∧ (l.asyncLookupRound t).cancelToken =
            some { scheduledAt := t, cancelRequested := false }
        ∧ (doLookupWhileNotValid s t k sw).signaled = s.signaled
        ∧ (doLookupWhileNotValid s t k sw).cache = s.cache) := by
  cases hc : isCancelationError sw <;> cases hv : l.valid
  · have hret := doLookup_retry s t k sw l h hc hv
    rw [hret]
    simp [InProgressLookup.asyncLookupRound]
  · have hfin := doLookup_finalize s t k sw l h (Or.inr hv)
    rw [hfin]
    simp
  · have hfin := doLookup_finalize s t k sw l h (Or.inl hc)
    rw [hfin]
    simp
  · have hfin := doLookup_finalize s t k sw l h (Or.inl hc)
    rw [hfin]
    simp

/-- Claim C5: a lookup-function error finalizes the round (Coordinator still valid, the
normal case; an invalidated round instead retries, see the loop condition): exactly that
error is handed to the shared promise held by every waiter, nothing is inserted into the
eviction cache, the Coordinator is removed from the in-progress map with no invariant
failure, and a subsequent acquireAsync for the key misses and schedules a fresh lookup
round - failures are not memoized. -/
theorem lookup_failure_not_memoized (s : CacheState Key Value) (t u : Nat) (k : Key)
    (st : Status) (l : InProgressLookup Value) (h : s.inProgress k = some l)
    (hv : l.valid = true) (hk : s.cache k = none) (hcr : s.crashed = false) :
    (doLookupWhileNotValid s t k (Except.error st)).signaled =
        s.signaled ++ [mkSignalEntry k l (Except.error st) t]
    ∧ (mkSignalEntry k l (Except.error st) t).outcome = Except.error st
    ∧ (mkSignalEntry k l (Except.error st) t).delivered = true
    ∧ (mkSignalEntry k l (Except.error st) t).waiters = l.waiters
    ∧ (doLookupWhileNotValid s t k (Except.error st)).cache = s.cache
    ∧ (doLookupWhileNotValid s t k (Except.error st)).inProgress k = none
    ∧ (doLookupWhileNotValid s t k (Except.error st)).crashed = false
    ∧ (acquireAsync (doLookupWhileNotValid s t k (Except.error st)) u k).2 =
        AcquireResult.scheduled s.nextGen
    ∧ (acquireAsync (doLookupWhileNotValid s t k (Except.error st)) u k).1.inProgress k =
        some (startedLookup s.nextGen u) := by
  have hfin := doLookup_finalize s t k (Except.error st) l h (Or.inr hv)
  have hca : cacheAfterLookup s.cache k (Except.error st) t = s.cache := rfl
  have hmiss :
      acquireAsync (doLookupWhileNotValid s t k (Except.error st)) u k =
        ({ doLookupWhileNotValid s t k (Except.error st) with
             inProgress :=
               upd (doLookupWhileNotValid s t k (Except.error st)).inProgress k
                 (some (startedLookup (doLookupWhileNotValid s t k (Except.error st)).nextGen u)),
             nextGen := (doLookupWhileNotValid s t k (Except.error st)).nextGen + 1 },
         AcquireResult.scheduled (doLookupWhileNotValid s t k (Except.error st)).nextGen) := by
    apply acquireAsync_miss
    · rw [hfin]; simp [hca, hk]
    · rw [hfin]; simp
  refine ⟨by rw [hfin], ?_, ?_, rfl, by rw [hfin]; exact hca, by rw [hfin]; simp, ?_, ?_, ?_⟩
  · simp [mkSignalEntry, lookupOutcome]
  · simp [mkSignalEntry, hv]
  · rw [hfin]; simp [hcr, hv]
  · rw [hmiss, hfin]
  · rw [hmiss, hfin]; simp

/-- Claim C6: a lookup round reporting not-found finalizes (Coordinator still valid) by
resolving the shared promise without error to the empty ValueHandle, whose boolean
conversion is false; nothing is inserted into the eviction cache, and a subsequent
acquireAsync for the key misses and schedules a fresh lookup round - not-found is not
memoized. -/
theorem lookup_not_found_not_memoized (s : CacheState Key Value) (t u : Nat) (k : Key)
    (l : InProgressLookup Value) (h : s.inProgress k = some l)
    (hv : l.valid = true) (hk : s.cache k = none) (hcr : s.crashed = false) :
    (doLookupWhileNotValid s t k (Except.ok (LookupResult.mk none))).signaled =
        s.signaled ++ [mkSignalEntry k l (Except.ok (LookupResult.mk none)) t]
    ∧ (mkSignalEntry k l (Except.ok (LookupResult.mk none)) t).outcome =
        Except.ok (ValueHandle.empty : ValueHandle Value)
    ∧ (ValueHandle.empty : ValueHandle Value).toBool = false
    ∧ (mkSignalEntry k l (Except.ok (LookupResult.mk none)) t).delivered = true
    ∧ (doLookupWhileNotValid s t k (Except.ok (LookupResult.mk none))).cache = s.cache
    ∧ (doLookupWhileNotValid s t k (Except.ok (LookupResult.mk none))).inProgress k = none
    ∧ (doLookupWhileNotValid s t k (Except.ok (LookupResult.mk none))).crashed = false
    ∧ (acquireAsync (doLookupWhileNotValid s t k (Except.ok (LookupResult.mk none))) u k).2 =
        AcquireResult.scheduled s.nextGen
    ∧ (acquireAsync
          (doLookupWhileNotValid s t k (Except.ok (LookupResult.mk none))) u k).1.inProgress k =
        some (startedLookup s.nextGen u) := by
  have hfin := doLookup_finalize s t k (Except.ok (LookupResult.mk none)) l h (Or.inr hv)
  have hca : cacheAfterLookup s.cache k (Except.ok (LookupResult.mk none)) t = s.cache := rfl
  have hmiss :
      acquireAsync (doLookupWhileNotValid s t k (Except.ok (LookupResult.mk none))) u k =
        ({ doLookupWhileNotValid s t k (Except.ok (LookupResult.mk none)) with
             inProgress :=
               upd (doLookupWhileNotValid s t k (Except.ok (LookupResult.mk none))).inProgress k
                 (some (startedLookup
                   (doLookupWhileNotValid s t k (Except.ok (LookupResult.mk none))).nextGen u)),
             nextGen :=
               (doLookupWhileNotValid s t k (Except.ok (LookupResult.mk none))).nextGen + 1 },
         AcquireResult.scheduled
           (doLookupWhileNotValid s t k (Except.ok (LookupResult.mk none))).nextGen) := by
    apply acquireAsync_miss
    · rw [hfin]; simp [hca, hk]
    · rw [hfin]; simp
  refine ⟨by rw [hfin], ?_, rfl, ?_, by rw [hfin]; exact hca, by rw [hfin]; simp, ?_, ?_, ?_⟩
  · simp [mkSignalEntry, lookupOutcome, ValueHandle.empty]
  · simp [mkSignalEntry, hv]
  · rw [hfin]; simp [hcr, hv]
  · rw [hmiss, hfin]
  · rw [hmiss, hfin]; simp

/-- Claim C7: acquireAsync dispatch.  A cache hit returns the cached handle with the state
untouched (no coordinator created, no round scheduled).  On a miss with an existing
Coordinator, the caller joins it through addWaiter: one more waiter on the same shared
promise, no second Coordinator, no new round (the cancel token is untouched), no other key
affected.  Otherwise exactly one new Coordinator is created and registered with one waiter
and its first round scheduled at the current time. -/
theorem acquireAsync_dispatch (s : CacheState Key Value) (t : Nat) (k : Key) :
    (∀ sv, s.cache k = some sv →
        acquireAsync s t k = (s, AcquireResult.hit { handle := some sv }))
    ∧ (∀ l, s.cache k = none → s.inProgress k = some l →
        (acquireAsync s t k).1.inProgress k = some l.addWaiter
        ∧ (acquireAsync s t k).2 = AcquireResult.joined l.genId
        ∧ l.addWaiter.waiters = l.waiters + 1
        ∧ l.addWaiter.cancelToken = l.cancelToken
        ∧ l.addWaiter.valid = l.valid
        ∧ l.addWaiter.sharedPromise = l.sharedPromise
        ∧ (∀ q, q ≠ k → (acquireAsync s t k).1.inProgress q = s.inProgress q)
        ∧ (acquireAsync s t k).1.cache = s.cache
        ∧ (acquireAsync s t k).1.signaled = s.signaled)
    ∧ (s.cache k = none → s.inProgress k = none →
        (acquireAsync s t k).1.inProgress k = some (startedLookup s.nextGen t)
        ∧ (acquireAsync s t k).2 = AcquireResult.scheduled s.nextGen
        ∧ (startedLookup s.nextGen t : InProgressLookup Value).waiters = 1
        ∧ (startedLookup s.nextGen t : InProgressLookup Value).valid = true
        ∧ (startedLookup s.nextGen t : InProgressLookup Value).cancelToken =
            some { scheduledAt := t, cancelRequested := false }
        ∧ (∀ q, q ≠ k → (acquireAsync s t k).1.inProgress q = s.inProgress q)) := by
  refine ⟨?_, ?_, ?_⟩
  · intro sv hsv
    exact acquireAsync_hit s t k sv hsv
  · intro l hc hp
    rw [acquireAsync_join s t k l hc hp]
    refine ⟨by simp, rfl, rfl, rfl, rfl, rfl, ?_, rfl, rfl⟩
    intro q hq
    simp [upd_ne _ _ hq]
  · intro hc hp
    rw [acquireAsync_miss s t k hc hp]
    refine ⟨by simp, rfl, rfl, rfl, rfl, ?_⟩
    intro q hq
    simp [upd_ne _ _ hq]

/-- Claim C8: insertOrAssignAndGet invalidates the current round of the key's Coordinator
when one is in flight (valid becomes false and tryCancel is requested on its token, while
the Coordinator itself stays registered with its waiters and shared promise), then
overwrites the eviction-cache entry with the supplied value and timestamp and returns the
handle of the newly stored entry. -/
theorem insertOrAssignAndGet_behavior (s : CacheState Key Value) (t : Nat) (k : Key)
    (v : Value) (tw : Date) :
    (∀ l, s.inProgress k = some l →
        (insertOrAssignAndGet s t k v tw).1.inProgress k =
            some (l.invalidateAndCancelCurrentLookupRound t)
        ∧ (l.invalidateAndCancelCurrentLookupRound t).valid = false
        ∧ (∀ tok, l.cancelToken = some tok →
            (l.invalidateAndCancelCurrentLookupRound t).cancelToken =
              some { scheduledAt := tok.scheduledAt, cancelRequested := true })
        ∧ (l.invalidateAndCancelCurrentLookupRound t).waiters = l.waiters
        ∧ (l.invalidateAndCancelCurrentLookupRound t).sharedPromise = l.sharedPromise)
    ∧ (s.inProgress k = none → (insertOrAssignAndGet s t k v tw).1.inProgress k = none)
    ∧ (insertOrAssignAndGet s t k v tw).1.cache k =
        some { value := v, updateWallClockTime := tw }
    ∧ (insertOrAssignAndGet s t k v tw).2 =
        { handle := some { value := v, updateWallClockTime := tw } } := by
  refine ⟨?_, ?_, ?_, ?_⟩
  · intro l hp
    rw [insertOrAssign_coordinator s t k v tw l hp]
    refine ⟨by simp, rfl, ?_, rfl, rfl⟩
    intro tok htok
    simp [InProgressLookup.invalidateAndCancelCurrentLookupRound, htok]
  · intro hp
    rw [insertOrAssign_noCoordinator s t k v tw hp]
    exact hp
  · cases hp : s.inProgress k with
    | none => rw [insertOrAssign_noCoordinator s t k v tw hp]; simp
    | some l => rw [insertOrAssign_coordinator s t k v tw l hp]; simp
  · cases hp : s.inProgress k with
    | none => rw [insertOrAssign_noCoordinator s t k v tw hp]
    | some l => rw [insertOrAssign_coordinator s t k v tw l hp]

/-- Claim C10: a ValueHandle built by the pinning constructor from a bare value converts
to boolean true and reports updateWallClockTime equal to Date_t::min(), while a
default-constructed handle converts to boolean false; the pinning constructor takes only
the value, so neither the eviction cache nor the lookup function is consulted. -/
theorem pinned_value_handle (v : Value) :
    (ValueHandle.pinned v).toBool = true
    ∧ (ValueHandle.pinned v).updateWallClockTime = some Date.min
    ∧ (ValueHandle.empty : ValueHandle Value).toBool = false
    ∧ (ValueHandle.empty : ValueHandle Value).updateWallClockTime = none := by
  simp [ValueHandle.pinned, ValueHandle.empty, ValueHandle.toBool,
    ValueHandle.updateWallClockTime]

/-- Claim C2, refuted on the code: after acquireAsync(0) puts a lookup for key 0 in
flight, insertOrAssignAndGet(0, 7, 3) invalidates the Coordinator's round but leaves the
Coordinator on the in-progress map (lines 256-261 never erase it) while inserting key 0
into the eviction cache, so at the externally observable instant after the call returns
(no mutex held, no invariant failure) the key is present in BOTH maps, contradicting the
single-location invariant (and the source's own comment on lines 382-384). -/
theorem single_location_invariant_violated :
    (((run [Event.acquireAsync 0, Event.insertOrAssignAndGet 0 7 3] :
        CacheState Nat Nat).cache 0).isSome = true)
    ∧ (((run [Event.acquireAsync 0, Event.insertOrAssignAndGet 0 7 3] :
        CacheState Nat Nat).inProgress 0).isSome = true)
    ∧ ((run [Event.acquireAsync 0, Event.insertOrAssignAndGet 0 7 3] :
        CacheState Nat Nat).crashed = false) := by
  refine ⟨by decide, by decide, by decide⟩

/-- Claim C3, refuted on the code: acquireAsync(0) schedules a round, invalidate(0) sets
the Coordinator's valid to false and tryCancel wins, so the round completes with the
cancelation-category status.  The loop does terminate without retrying (the Coordinator is
removed, exactly one signalWaiters call is made with that error), but signalWaiters'
invariant(_valid) on line 450 fires because valid is false, so the process aborts and the
cancellation error is never delivered to the one waiter. -/
theorem canceled_round_invariant_failure :
    ((run [Event.acquireAsync 0, Event.invalidate 0,
        Event.roundComplete 0 (Except.error lookupCanceledStatus)] :
          CacheState Nat Nat).crashed = true)
    ∧ ((run [Event.acquireAsync 0, Event.invalidate 0,
        Event.roundComplete 0 (Except.error lookupCanceledStatus)] :
          CacheState Nat Nat).inProgress 0 = none)
    ∧ ((run [Event.acquireAsync 0, Event.invalidate 0,
        Event.roundComplete 0 (Except.error lookupCanceledStatus)] :
          CacheState Nat Nat).signaled.map SignalEntry.delivered = [false])
    ∧ ((run [Event.acquireAsync 0, Event.invalidate 0,
        Event.roundComplete 0 (Except.error lookupCanceledStatus)] :
          CacheState Nat Nat).signaled.map SignalEntry.waiters = [1])
    ∧ ((run [Event.acquireAsync 0, Event.invalidate 0,
        Event.roundComplete 0 (Except.error lookupCanceledStatus)] :
          CacheState Nat Nat).signaled.map SignalEntry.outcome =
        [Except.error lookupCanceledStatus]) := by
  refine ⟨by decide, by decide, by decide, by decide, by decide⟩

/-! ### Coordinator lifecycle -/

theorem step_crashed (s : CacheState Key Value) (t : Nat) (e : Event Key Value)
    (h : s.crashed = true) : step s t e = s := by
  simp [step, h]

theorem step_acquire (s : CacheState Key Value) (t : Nat) (k : Key)
    (h : s.crashed = false) : step s t (Event.acquireAsync k) = (acquireAsync s t k).1 := by
  simp [step, h]

theorem step_invalidate (s : CacheState Key Value) (t : Nat) (k : Key)
    (h : s.crashed = false) : step s t (Event.invalidate k) = invalidate s t k := by
  simp [step, h]

theorem step_insert (s : CacheState Key Value) (t : Nat) (k : Key) (v : Value) (tw : Date)
    (h : s.crashed = false) :
    step s t (Event.insertOrAssignAndGet k v tw) = (insertOrAssignAndGet s t k v tw).1 := by
  simp [step, h]

theorem step_round (s : CacheState Key Value) (t : Nat) (k : Key)
    (sw : Except Status (LookupResult Value)) (h : s.crashed = false) :
    step s t (Event.roundComplete k sw) = doLookupWhileNotValid s t k sw := by
  simp [step, h]

/-- In the step machine, the only transition that turns a Coordinator's valid flag from
false to true is the scheduling of a lookup round via asyncLookupRound (the retry branch
of the revalidation loop), stamped with the current time. -/
theorem valid_set_only_by_scheduling (s : CacheState Key Value) (t : Nat)
    (e : Event Key Value) (k : Key) (l1 l2 : InProgressLookup Value)
    (h1 : s.inProgress k = some l1) (h2 : (step s t e).inProgress k = some l2)
    (hv1 : l1.valid = false) (hv2 : l2.valid = true) :
    l2 = l1.asyncLookupRound t := by
  cases hcr : s.crashed with
  | true =>
    rw [step_crashed s t e hcr, h1] at h2
    injection h2 with h2
    rw [h2] at hv1
    rw [hv1] at hv2
    cases hv2
  | false =>
    cases e with
    | acquireAsync k2 =>
      rw [step_acquire s t k2 hcr] at h2
      cases hsv : s.cache k2 with
      | some sv =>
        rw [acquireAsync_hit s t k2 sv hsv] at h2
        rw [h1] at h2
        injection h2 with h2
        rw [h2] at hv1
        rw [hv1] at hv2
        cases hv2
      | none =>
        cases hp : s.inProgress k2 with
        | some l0 =>
          rw [acquireAsync_join s t k2 l0 hsv hp] at h2
          by_cases hk : k = k2
          · subst hk
            rw [h1] at hp
            injection hp with hp
            simp [upd] at h2
            rw [← h2, ← hp] at hv2
            simp [InProgressLookup.addWaiter, hv1] at hv2
          · simp [upd, hk, h1] at h2
            rw [← h2, hv1] at hv2
            cases hv2
        | none =>
          rw [acquireAsync_miss s t k2 hsv hp] at h2
          by_cases hk : k = k2
          · subst hk
            rw [h1] at hp
            cases hp
          · simp [upd, hk, h1] at h2
            rw [← h2, hv1] at hv2
            cases hv2
    | invalidate k2 =>
      rw [step_invalidate s t k2 hcr] at h2
      cases hp : s.inProgress k2 with
      | some l0 =>
        rw [invalidate_coordinator s t k2 l0 hp] at h2
        by_cases hk : k = k2
        · subst hk
          simp [upd] at h2
          rw [← h2] at hv2
          simp [InProgressLookup.invalidateAndCancelCurrentLookupRound] at hv2
        · simp [upd, hk, h1] at h2
          rw [← h2, hv1] at hv2
          cases hv2
      | none =>
        rw [invalidate_noCoordinator s t k2 hp] at h2
        rw [h1] at h2
        injection h2 with h2
        rw [h2] at hv1
        rw [hv1] at hv2
        cases hv2
    | insertOrAssignAndGet k2 v tw =>
      rw [step_insert s t k2 v tw hcr] at h2
      cases hp : s.inProgress k2 with
      | some l0 =>
        rw [insertOrAssign_coordinator s t k2 v tw l0 hp] at h2
        by_cases hk : k = k2
        · subst hk
          simp [upd] at h2
          rw [← h2] at hv2
          simp [InProgressLookup.invalidateAndCancelCurrentLookupRound] at hv2
        · simp [upd, hk, h1] at h2
          rw [← h2, hv1] at hv2
          cases hv2
      | none =>
        rw [insertOrAssign_noCoordinator s t k2 v tw hp] at h2
        rw [h1] at h2
        injection h2 with h2
        rw [h2] at hv1
        rw [hv1] at hv2
        cases hv2
    | roundComplete k2 sw =>
      rw [step_round s t k2 sw hcr] at h2
      cases hp : s.inProgress k2 with
      | some l0 =>
        by_cases hk : k = k2
        · subst hk
          rw [h1] at hp
          injection hp with hp
          cases hc : isCancelationError sw with
          | false =>
            rw [doLookup_retry s t k sw l0 (by rw [h1, hp]) hc (by rw [← hp]; exact hv1)] at h2
            simp [upd] at h2
            rw [← h2, hp]
          | true =>
            rw [doLookup_finalize s t k sw l0 (by rw [h1, hp]) (Or.inl hc)] at h2
            simp [upd] at h2
        · cases hc : isCancelationError sw with
          | false =>
            cases hv0 : l0.valid with
            | false =>
              rw [doLookup_retry s t k2 sw l0 hp hc hv0] at h2
              simp [upd, hk, h1] at h2
              rw [← h2, hv1] at hv2
              cases hv2
            | true =>
              rw [doLookup_finalize s t k2 sw l0 hp (Or.inr hv0)] at h2
              simp [upd, hk, h1] at h2
              rw [← h2, hv1] at hv2
              cases hv2
          | true =>
            rw [doLookup_finalize s t k2 sw l0 hp (Or.inl hc)] at h2
            simp [upd, hk, h1] at h2
            rw [← h2, hv1] at hv2
            cases hv2
      | none =>
        rw [doLookup_noCoordinator s t k2 sw hp] at h2
        by_cases hk : k = k2
        · subst hk
          rw [h1] at hp
          cases hp
        · rw [h1] at h2
          injection h2 with h2
          rw [h2] at hv1
          rw [hv1] at hv2
          cases hv2

/-- Claim C9: the Coordinator's valid flag is false at construction, becomes true exactly
when a lookup round is scheduled (asyncLookupRound; in the step machine no other
transition turns it from false to true), and is reset to false by
invalidateAndCancelCurrentLookupRound, which removes no waiter and resolves nothing: the
waiters stay subscribed to the same shared promise of the same Coordinator and are
satisfied only by a later signalWaiters call, which resolves that one shared promise, so
every waiter observes the identical terminal outcome. -/
theorem coordinator_valid_lifecycle (g t u : Nat) (l : InProgressLookup Value)
    (sw : Except Status (ValueHandle Value)) :
    (InProgressLookup.create g : InProgressLookup Value).valid = false
    ∧ (l.asyncLookupRound t).valid = true
    ∧ l.addWaiter.valid = l.valid
    ∧ (l.invalidateAndCancelCurrentLookupRound u).valid = false
    ∧ (l.invalidateAndCancelCurrentLookupRound u).waiters = l.waiters
    ∧ (l.invalidateAndCancelCurrentLookupRound u).sharedPromise = l.sharedPromise
    ∧ (l.invalidateAndCancelCurrentLookupRound u).genId = l.genId
    ∧ (l.asyncLookupRound t).waiters = l.waiters
    ∧ (l.asyncLookupRound t).sharedPromise = l.sharedPromise
    ∧ (l.valid = true → l.signalWaiters sw = some { l with sharedPromise := some sw })
    ∧ (∀ l2, l.signalWaiters sw = some l2 →
        l2.sharedPromise = some sw ∧ l2.waiters = l.waiters ∧ l2.genId = l.genId)
    ∧ (∀ (s : CacheState Key Value) (te : Nat) (e : Event Key Value) (k : Key)
        (l1 l2 : InProgressLookup Value),
        s.inProgress k = some l1 → (step s te e).inProgress k = some l2 →
        l1.valid = false → l2.valid = true → l2 = l1.asyncLookupRound te) := by
  refine ⟨rfl, rfl, rfl, rfl, rfl, rfl, rfl, rfl, rfl, ?_, ?_, ?_⟩
  · intro hv
    simp [InProgressLookup.signalWaiters, hv]
  · intro l2 h
    cases hv : l.valid with
    | false => simp [InProgressLookup.signalWaiters, hv] at h
    | true =>
      simp [InProgressLookup.signalWaiters, hv] at h
      rw [← h]
      exact ⟨rfl, rfl, rfl⟩
  · intro s te e k l1 l2 h1 h2 hv1 hv2
    exact valid_set_only_by_scheduling s te e k l1 l2 h1 h2 hv1 hv2

/-! ### Reachability invariants -/

/-- Invariants of reachable cache states, relative to the next time stamp t: every stamp
in the state lies in the past; a valid Coordinator holds the token of a round that was
scheduled strictly after the Coordinator's last invalidation; ghost generation ids are
governed by the nextGen counter; and a live Coordinator has no log entry yet. -/
structure Inv (s : CacheState Key Value) (t : Nat) : Prop where
  stampsTok : ∀ k l tok, s.inProgress k = some l → l.cancelToken = some tok →
    tok.scheduledAt < t
  stampsInv : ∀ k l j, s.inProgress k = some l → l.lastInvalidate = some j → j < t
  validTok : ∀ k l, s.inProgress k = some l → l.valid = true → l.cancelToken.isSome = true
  validFresh : ∀ k l tok j, s.inProgress k = some l → l.valid = true →
    l.cancelToken = some tok → l.lastInvalidate = some j → j < tok.scheduledAt
  genLive : ∀ k l, s.inProgress k = some l → l.genId < s.nextGen
  logGen : ∀ e, e ∈ s.signaled → e.genId < s.nextGen
  liveNotLogged : ∀ k l e, s.inProgress k = some l → e ∈ s.signaled → e.key = k →
    e.genId ≠ l.genId

theorem inv_start : Inv (CacheState.start : CacheState Key Value) 0 := by
  constructor
  · intro k l tok h1 _; exact Option.noConfusion h1
  · intro k l j h1 _; exact Option.noConfusion h1
  · intro k l h1 _; exact Option.noConfusion h1
  · intro k l tok j h1 _ _ _; exact Option.noConfusion h1
  · intro k l h1; exact Option.noConfusion h1
  · intro e he; cases he
  · intro k l e h1 he _; cases he

theorem inv_mono {s : CacheState Key Value} {t t2 : Nat} (h : Inv s t) (htt : t ≤ t2) :
    Inv s t2 := by
  constructor
  · intro k l tok h1 h2; exact Nat.lt_of_lt_of_le (h.stampsTok k l tok h1 h2) htt
  · intro k l j h1 h2; exact Nat.lt_of_lt_of_le (h.stampsInv k l j h1 h2) htt
  · exact h.validTok
  · exact h.validFresh
  · exact h.genLive
  · exact h.logGen
  · exact h.liveNotLogged

/-- Inv only reads the in-progress map, the generation counter and the log, so states
agreeing there share it. -/
theorem inv_of_eq {s1 s2 : CacheState Key Value} {t : Nat} (h : Inv s1 t)
    (hip : s2.inProgress = s1.inProgress) (hg : s2.nextGen = s1.nextGen)
    (hsg : s2.signaled = s1.signaled) : Inv s2 t := by
  constructor
  · intro k l tok h1 h2; exact h.stampsTok k l tok (by rw [← hip]; exact h1) h2
  · intro k l j h1 h2; exact h.stampsInv k l j (by rw [← hip]; exact h1) h2
  · intro k l h1 h2; exact h.validTok k l (by rw [← hip]; exact h1) h2
  · intro k l tok j h1 h2 h3 h4
    exact h.validFresh k l tok j (by rw [← hip]; exact h1) h2 h3 h4
  · intro k l h1; rw [hg]; exact h.genLive k l (by rw [← hip]; exact h1)
  · intro e he; rw [hg]; exact h.logGen e (by rw [← hsg]; exact he)
  · intro k l e h1 he h2
    exact h.liveNotLogged k l e (by rw [← hip]; exact h1) (by rw [← hsg]; exact he) h2

theorem inv_upd_join (s : CacheState Key Value) (t : Nat) (k0 : Key)
    (l0 : InProgressLookup Value) (h : Inv s t) (hp : s.inProgress k0 = some l0) :
    Inv { s with inProgress := upd s.inProgress k0 (some l0.addWaiter) } (t + 1) := by
  constructor
  · intro k l tok h1 h2
    by_cases hk : k = k0
    · simp [upd, hk] at h1
      subst h1
      exact Nat.lt_succ_of_lt (h.stampsTok k0 l0 tok hp h2)
    · simp [upd, hk] at h1
      exact Nat.lt_succ_of_lt (h.stampsTok k l tok h1 h2)
  · intro k l j h1 h2
    by_cases hk : k = k0
    · simp [upd, hk] at h1
      subst h1
      exact Nat.lt_succ_of_lt (h.stampsInv k0 l0 j hp h2)
    · simp [upd, hk] at h1
      exact Nat.lt_succ_of_lt (h.stampsInv k l j h1 h2)
  · intro k l h1 h2
    by_cases hk : k = k0
    · simp [upd, hk] at h1
      subst h1
      exact h.validTok k0 l0 hp h2
    · simp [upd, hk] at h1
      exact h.validTok k l h1 h2
  · intro k l tok j h1 h2 h3 h4
    by_cases hk : k = k0
    · simp [upd, hk] at h1
      subst h1
      exact h.validFresh k0 l0 tok j hp h2 h3 h4
    · simp [upd, hk] at h1
      exact h.validFresh k l tok j h1 h2 h3 h4
  · intro k l h1
    by_cases hk : k = k0
    · simp [upd, hk] at h1
      subst h1
      exact h.genLive k0 l0 hp
    · simp [upd, hk] at h1
      exact h.genLive k l h1
  · exact h.logGen
  · intro k l e h1 he h2
    by_cases hk : k = k0
    · simp [upd, hk] at h1
      subst h1
      subst hk
      exact h.liveNotLogged k l0 e hp he h2
    · simp [upd, hk] at h1
      exact h.liveNotLogged k l e h1 he h2

theorem inv_upd_invalidate (s : CacheState Key Value) (t : Nat) (k0 : Key)
    (l0 : InProgressLookup Value) (h : Inv s t) (hp : s.inProgress k0 = some l0) :
    Inv { s with inProgress := upd s.inProgress k0 (some (l0.invalidateAndCancelCurrentLookupRound t)) }
        (t + 1) := by
  constructor
  · intro k l tok h1 h2
    by_cases hk : k = k0
    · simp [upd, hk] at h1
      subst h1
      simp [InProgressLookup.invalidateAndCancelCurrentLookupRound,
        Option.map_eq_some'] at h2
      obtain ⟨tok0, htok0, hfa⟩ := h2
      rw [← hfa]
      exact Nat.lt_succ_of_lt (h.stampsTok k0 l0 tok0 hp htok0)
    · simp [upd, hk] at h1
      exact Nat.lt_succ_of_lt (h.stampsTok k l tok h1 h2)
  · intro k l j h1 h2
    by_cases hk : k = k0
    · simp [upd, hk] at h1
      subst h1
      simp [InProgressLookup.invalidateAndCancelCurrentLookupRound] at h2
      rw [← h2]
      exact Nat.lt_succ_self t
    · simp [upd, hk] at h1
      exact Nat.lt_succ_of_lt (h.stampsInv k l j h1 h2)
  · intro k l h1 h2
    by_cases hk : k = k0
    · simp [upd, hk] at h1
      subst h1
      simp [InProgressLookup.invalidateAndCancelCurrentLookupRound] at h2
    · simp [upd, hk] at h1
      exact h.validTok k l h1 h2
  · intro k l tok j h1 h2 h3 h4
    by_cases hk : k = k0
    · simp [upd, hk] at h1
      subst h1
      simp [InProgressLookup.invalidateAndCancelCurrentLookupRound] at h2
    · simp [upd, hk] at h1
      exact h.validFresh k l tok j h1 h2 h3 h4
  · intro k l h1
    by_cases hk : k = k0
    · simp [upd, hk] at h1
      subst h1
      exact h.genLive k0 l0 hp
    · simp [upd, hk] at h1
      exact h.genLive k l h1
  · exact h.logGen
  · intro k l e h1 he h2
    by_cases hk : k = k0
    · simp [upd, hk] at h1
      subst h1
      subst hk
      exact h.liveNotLogged k l0 e hp he h2
    · simp [upd, hk] at h1
      exact h.liveNotLogged k l e h1 he h2

theorem inv_upd_retry (s : CacheState Key Value) (t : Nat) (k0 : Key)
    (l0 : InProgressLookup Value) (h : Inv s t) (hp : s.inProgress k0 = some l0) :
    Inv { s with inProgress := upd s.inProgress k0 (some (l0.asyncLookupRound t)) }
        (t + 1) := by
  constructor
  · intro k l tok h1 h2
    by_cases hk : k = k0
    · simp [upd, hk] at h1
      subst h1
      simp [InProgressLookup.asyncLookupRound] at h2
      rw [← h2]
      exact Nat.lt_succ_self t
    · simp [upd, hk] at h1
      exact Nat.lt_succ_of_lt (h.stampsTok k l tok h1 h2)
  · intro k l j h1 h2
    by_cases hk : k = k0
    · simp [upd, hk] at h1
      subst h1
      exact Nat.lt_succ_of_lt (h.stampsInv k0 l0 j hp h2)
    · simp [upd, hk] at h1
      exact Nat.lt_succ_of_lt (h.stampsInv k l j h1 h2)
  · intro k l h1 h2
    by_cases hk : k = k0
    · simp [upd, hk] at h1
      subst h1
      simp [InProgressLookup.asyncLookupRound]
    · simp [upd, hk] at h1
      exact h.validTok k l h1 h2
  · intro k l tok j h1 h2 h3 h4
    by_cases hk : k = k0
    · simp [upd, hk] at h1
      subst h1
      simp [InProgressLookup.asyncLookupRound] at h3
      rw [← h3]
      exact h.stampsInv k0 l0 j hp h4
    · simp [upd, hk] at h1
      exact h.validFresh k l tok j h1 h2 h3 h4
  · intro k l h1
    by_cases hk : k = k0
    · simp [upd, hk] at h1
      subst h1
      exact h.genLive k0 l0 hp
    · simp [upd, hk] at h1
      exact h.genLive k l h1
  · exact h.logGen
  · intro k l e h1 he h2
    by_cases hk : k = k0
    · simp [upd, hk] at h1
      subst h1
      subst hk
      exact h.liveNotLogged k l0 e hp he h2
    · simp [upd, hk] at h1
      exact h.liveNotLogged k l e h1 he h2

theorem inv_upd_create (s : CacheState Key Value) (t : Nat) (k0 : Key) (h : Inv s t) :
    Inv { s with inProgress := upd s.inProgress k0 (some (startedLookup s.nextGen t)),
                 nextGen := s.nextGen + 1 } (t + 1) := by
  constructor
  · intro k l tok h1 h2
    by_cases hk : k = k0
    · simp [upd, hk] at h1
      subst h1
      simp [startedLookup] at h2
      rw [← h2]
      exact Nat.lt_succ_self t
    · simp [upd, hk] at h1
      exact Nat.lt_succ_of_lt (h.stampsTok k l tok h1 h2)
  · intro k l j h1 h2
    by_cases hk : k = k0
    · simp [upd, hk] at h1
      subst h1
      simp [startedLookup] at h2
    · simp [upd, hk] at h1
      exact Nat.lt_succ_of_lt (h.stampsInv k l j h1 h2)
  · intro k l h1 h2
    by_cases hk : k = k0
    · simp [upd, hk] at h1
      subst h1
      simp [startedLookup]
    · simp [upd, hk] at h1
      exact h.validTok k l h1 h2
  · intro k l tok j h1 h2 h3 h4
    by_cases hk : k = k0
    · simp [upd, hk] at h1
      subst h1
      simp [startedLookup] at h4
    · simp [upd, hk] at h1
      exact h.validFresh k l tok j h1 h2 h3 h4
  · intro k l h1
    by_cases hk : k = k0
    · simp [upd, hk] at h1
      subst h1
      exact Nat.lt_succ_self s.nextGen
    · simp [upd, hk] at h1
      exact Nat.lt_succ_of_lt (h.genLive k l h1)
  · intro e he
    exact Nat.lt_succ_of_lt (h.logGen e he)
  · intro k l e h1 he h2
    by_cases hk : k = k0
    · simp [upd, hk] at h1
      subst h1
      exact Nat.ne_of_lt (h.logGen e he)
    · simp [upd, hk] at h1
      exact h.liveNotLogged k l e h1 he h2

theorem inv_upd_finalize (s : CacheState Key Value) (t : Nat) (k0 : Key)
    (l0 : InProgressLookup Value) (sw : Except Status (LookupResult Value)) (h : Inv s t)
    (hp : s.inProgress k0 = some l0) :
    Inv { s with inProgress := upd s.inProgress k0 none,
                 signaled := s.signaled ++ [mkSignalEntry k0 l0 sw t] } (t + 1) := by
  constructor
  · intro k l tok h1 h2
    by_cases hk : k = k0
    · simp [upd, hk] at h1
    · simp [upd, hk] at h1
      exact Nat.lt_succ_of_lt (h.stampsTok k l tok h1 h2)
  · intro k l j h1 h2
    by_cases hk : k = k0
    · simp [upd, hk] at h1
    · simp [upd, hk] at h1
      exact Nat.lt_succ_of_lt (h.stampsInv k l j h1 h2)
  · intro k l h1 h2
    by_cases hk : k = k0
    · simp [upd, hk] at h1
    · simp [upd, hk] at h1
      exact h.validTok k l h1 h2
  · intro k l tok j h1 h2 h3 h4
    by_cases hk : k = k0
    · simp [upd, hk] at h1
    · simp [upd, hk] at h1
      exact h.validFresh k l tok j h1 h2 h3 h4
  · intro k l h1
    by_cases hk : k = k0
    · simp [upd, hk] at h1
    · simp [upd, hk] at h1
      exact h.genLive k l h1
  · intro e he
    simp [List.mem_append] at he
    rcases he with he | he
    · exact h.logGen e he
    · rw [he]
      exact h.genLive k0 l0 hp
  · intro k l e h1 he h2
    by_cases hk : k = k0
    · simp [upd, hk] at h1
    · simp [upd, hk] at h1
      simp [List.mem_append] at he
      rcases he with he | he
      · exact h.liveNotLogged k l e h1 he h2
      · rw [he] at h2
        exact absurd h2.symm hk

theorem inv_acquire (s : CacheState Key Value) (t : Nat) (k0 : Key) (h : Inv s t) :
    Inv ((acquireAsync s t k0).1) (t + 1) := by
  cases hsv : s.cache k0 with
  | some sv =>
    rw [acquireAsync_hit s t k0 sv hsv]
    exact inv_mono h (Nat.le_succ t)
  | none =>
    cases hp : s.inProgress k0 with
    | some l0 =>
      rw [acquireAsync_join s t k0 l0 hsv hp]
      exact inv_upd_join s t k0 l0 h hp
    | none =>
      rw [acquireAsync_miss s t k0 hsv hp]
      exact inv_upd_create s t k0 h

theorem inv_invalidate (s : CacheState Key Value) (t : Nat) (k0 : Key) (h : Inv s t) :
    Inv (invalidate s t k0) (t + 1) := by
  cases hp : s.inProgress k0 with
  | some l0 =>
    rw [invalidate_coordinator s t k0 l0 hp]
    exact inv_of_eq (inv_upd_invalidate s t k0 l0 h hp) rfl rfl rfl
  | none =>
    rw [invalidate_noCoordinator s t k0 hp]
    exact inv_of_eq (inv_mono h (Nat.le_succ t)) rfl rfl rfl

theorem inv_insert (s : CacheState Key Value) (t : Nat) (k0 : Key) (v : Value) (tw : Date)
    (h : Inv s t) : Inv ((insertOrAssignAndGet s t k0 v tw).1) (t + 1) := by
  cases hp : s.inProgress k0 with
  | some l0 =>
    rw [insertOrAssign_coordinator s t k0 v tw l0 hp]
    exact inv_of_eq (inv_upd_invalidate s t k0 l0 h hp) rfl rfl rfl
  | none =>
    rw [insertOrAssign_noCoordinator s t k0 v tw hp]
    exact inv_of_eq (inv_mono h (Nat.le_succ t)) rfl rfl rfl

theorem inv_doLookup (s : CacheState Key Value) (t : Nat) (k0 : Key)
    (sw : Except Status (LookupResult Value)) (h : Inv s t) :
    Inv (doLookupWhileNotValid s t k0 sw) (t + 1) := by
  cases hp : s.inProgress k0 with
  | none =>
    rw [doLookup_noCoordinator s t k0 sw hp]
    exact inv_of_eq (inv_mono h (Nat.le_succ t)) rfl rfl rfl
  | some l0 =>
    cases hc : isCancelationError sw with
    | false =>
      cases hv : l0.valid with
      | false =>
        rw [doLookup_retry s t k0 sw l0 hp hc hv]
        exact inv_upd_retry s t k0 l0 h hp
      | true =>
        rw [doLookup_finalize s t k0 sw l0 hp (Or.inr hv)]
        exact inv_of_eq (inv_upd_finalize s t k0 l0 sw h hp) rfl rfl rfl
    | true =>
      rw [doLookup_finalize s t k0 sw l0 hp (Or.inl hc)]
      exact inv_of_eq (inv_upd_finalize s t k0 l0 sw h hp) rfl rfl rfl

theorem inv_step (s : CacheState Key Value) (t : Nat) (e : Event Key Value) (h : Inv s t) :
    Inv (step s t e) (t + 1) := by
  cases hcr : s.crashed with
  | true =>
    rw [step_crashed s t e hcr]
    exact inv_mono h (Nat.le_succ t)
  | false =>
    cases e with
    | acquireAsync k => rw [step_acquire s t k hcr]; exact inv_acquire s t k h
    | invalidate k => rw [step_invalidate s t k hcr]; exact inv_invalidate s t k h
    | insertOrAssignAndGet k v tw =>
      rw [step_insert s t k v tw hcr]; exact inv_insert s t k v tw h
    | roundComplete k sw => rw [step_round s t k sw hcr]; exact inv_doLookup s t k sw h

theorem inv_runFrom (es : List (Event Key Value)) :
    ∀ (s : CacheState Key Value) (t : Nat), Inv s t → Inv (runFrom s t es) (t + es.length) := by
  induction es with
  | nil => intro s t h; simpa [runFrom] using h
  | cons e es ih =>
    intro s t h
    have h2 := ih (step s t e) (t + 1) (inv_step s t e h)
    rw [runFrom]
    have harith : t + 1 + es.length = t + (e :: es).length := by
      simp [List.length_cons]
      omega
    rw [← harith]
    exact h2

theorem inv_run (es : List (Event Key Value)) : Inv (run es) es.length := by
  have h := inv_runFrom es (CacheState.start : CacheState Key Value) 0 inv_start
  simpa [run] using h

/-! ### The invalidation barrier -/

/-- Barrier bookkeeping for the coordinator generation g of key k, invalidated at time i:
either that generation is still live, carries a lastInvalidate stamp at or after i, and
has no log entry yet; or it is finished, can never reappear (g is below the generation
counter), and every delivered log entry of key k and generation g finalized a round
scheduled strictly after i. -/
def BarrierInv (k : Key) (g i : Nat) (s : CacheState Key Value) : Prop :=
  ((∃ l, s.inProgress k = some l ∧ l.genId = g ∧
      ∃ j, l.lastInvalidate = some j ∧ i ≤ j)
    ∧ ∀ e, e ∈ s.signaled → e.key = k → e.genId ≠ g)
  ∨ (g < s.nextGen
    ∧ (∀ l, s.inProgress k = some l → l.genId ≠ g)
    ∧ ∀ e, e ∈ s.signaled → e.key = k → e.genId = g → e.delivered = true →
        i < e.roundScheduledAt)

theorem barrierInv_of_eq {s1 s2 : CacheState Key Value} {k : Key} {g i : Nat}
    (h : BarrierInv k g i s1) (hip : s2.inProgress = s1.inProgress)
    (hg : s2.nextGen = s1.nextGen) (hsg : s2.signaled = s1.signaled) :
    BarrierInv k g i s2 := by
  unfold BarrierInv at h ⊢
  rw [hip, hg, hsg]
  exact h

/-- Replacing one key's coordinator by one with the same generation and the same or an
at-or-after-i refreshed lastInvalidate stamp preserves the barrier bookkeeping. -/
theorem barrierInv_updCoordinator (s : CacheState Key Value) (k k2 : Key) (g i : Nat)
    (l0 l1 : InProgressLookup Value) (hb : BarrierInv k g i s)
    (hp : s.inProgress k2 = some l0) (hgen : l1.genId = l0.genId)
    (hinv : l1.lastInvalidate = l0.lastInvalidate ∨
      (∃ t2, l1.lastInvalidate = some t2 ∧ i ≤ t2)) :
    BarrierInv k g i { s with inProgress := upd s.inProgress k2 (some l1) } := by
  rcases hb with ⟨⟨l, hl, hg2, j, hj, hij⟩, hlog⟩ | ⟨hgen2, hlive, hlog⟩
  · left
    refine ⟨?_, hlog⟩
    by_cases hk : k = k2
    · subst hk
      rw [hl] at hp
      injection hp with hp
      refine ⟨l1, by simp [upd], by rw [hgen, ← hp, hg2], ?_⟩
      rcases hinv with hsame | ⟨t2, ht2, hit2⟩
      · exact ⟨j, by rw [hsame, ← hp]; exact hj, hij⟩
      · exact ⟨t2, ht2, hit2⟩
    · exact ⟨l, by simpa [upd, hk] using hl, hg2, j, hj, hij⟩
  · right
    refine ⟨hgen2, ?_, hlog⟩
    intro l hl
    by_cases hk : k = k2
    · subst hk
      simp [upd] at hl
      rw [← hl, hgen]
      exact hlive l0 hp
    · simp [upd, hk] at hl
      exact hlive l hl

/-- Creating a fresh coordinator (with genId drawn from the counter) for a key that had
none preserves the barrier bookkeeping. -/
theorem barrierInv_create (s : CacheState Key Value) (k k2 : Key) (g i t : Nat)
    (hb : BarrierInv k g i s) (hp : s.inProgress k2 = none) :
    BarrierInv k g i
      { s with inProgress := upd s.inProgress k2 (some (startedLookup s.nextGen t)),
               nextGen := s.nextGen + 1 } := by
  rcases hb with ⟨⟨l, hl, hg2, j, hj, hij⟩, hlog⟩ | ⟨hgen2, hlive, hlog⟩
  · left
    refine ⟨?_, hlog⟩
    by_cases hk : k = k2
    · subst hk
      rw [hl] at hp
      exact Option.noConfusion hp
    · exact ⟨l, by simpa [upd, hk] using hl, hg2, j, hj, hij⟩
  · right
    refine ⟨Nat.lt_succ_of_lt hgen2, ?_, hlog⟩
    intro l hl
    by_cases hk : k = k2
    · subst hk
      simp [upd] at hl
      rw [← hl]
      simp [startedLookup]
      exact Ne.symm (Nat.ne_of_lt hgen2)
    · simp [upd, hk] at hl
      exact hlive l hl

/-- Finalization of a round - the coordinator leaves the map and its signalWaiters call is
logged - preserves the barrier bookkeeping: a delivered outcome needs valid = true, and
under Inv a valid coordinator's round was scheduled strictly after its last
invalidation. -/
theorem barrierInv_finalize (s : CacheState Key Value) (k k2 : Key) (g i t : Nat)
    (l0 : InProgressLookup Value) (sw : Except Status (LookupResult Value))
    (h : Inv s t) (hb : BarrierInv k g i s) (hp : s.inProgress k2 = some l0) :
    BarrierInv k g i
      { s with inProgress := upd s.inProgress k2 none,
               signaled := s.signaled ++ [mkSignalEntry k2 l0 sw t] } := by
  rcases hb with ⟨⟨l, hl, hg2, j, hj, hij⟩, hlog⟩ | ⟨hgen2, hlive, hlog⟩
  · by_cases hk : k = k2
    · subst hk
      rw [hl] at hp
      injection hp with hp
      right
      refine ⟨?_, ?_, ?_⟩
      · rw [← hg2, hp]
        exact h.genLive k l0 (hp ▸ hl)
      · intro l2 hl2
        simp [upd] at hl2
      · intro e he hekey hegen hedel
        simp [List.mem_append] at he
        rcases he with he | he
        · exact absurd hegen (hlog e he hekey)
        · subst he
          have hvalid : l0.valid = true := by simpa [mkSignalEntry] using hedel
          have htokS := h.validTok k l0 (hp ▸ hl) hvalid
          obtain ⟨tok, htok⟩ := Option.isSome_iff_exists.mp htokS
          have hfresh := h.validFresh k l0 tok j (hp ▸ hl) hvalid htok
            (by rw [← hp]; exact hj)
          have hsched : (mkSignalEntry k l0 sw t).roundScheduledAt = tok.scheduledAt := by
            simp [mkSignalEntry, htok]
          rw [hsched]
          exact Nat.lt_of_le_of_lt hij hfresh
    · left
      refine ⟨⟨l, by simpa [upd, hk] using hl, hg2, j, hj, hij⟩, ?_⟩
      intro e he hekey
      simp [List.mem_append] at he
      rcases he with he | he
      · exact hlog e he hekey
      · subst he
        have hkk : k2 = k := by simpa [mkSignalEntry] using hekey
        exact absurd hkk.symm hk
  · right
    refine ⟨hgen2, ?_, ?_⟩
    · intro l2 hl2
      by_cases hk : k = k2
      · subst hk
        simp [upd] at hl2
      · simp [upd, hk] at hl2
        exact hlive l2 hl2
    · intro e he hekey hegen hedel
      simp [List.mem_append] at he
      rcases he with he | he
      · exact hlog e he hekey hegen hedel
      · subst he
        have hkk : k2 = k := by simpa [mkSignalEntry] using hekey
        subst hkk
        have hgen0 : l0.genId = g := by simpa [mkSignalEntry] using hegen
        exact absurd hgen0 (hlive l0 hp)

theorem barrier_step (s : CacheState Key Value) (t : Nat) (e : Event Key Value)
    (k : Key) (g i : Nat) (h : Inv s t) (hi : i < t) (hb : BarrierInv k g i s) :
    BarrierInv k g i (step s t e) := by
  cases hcr : s.crashed with
  | true => rw [step_crashed s t e hcr]; exact hb
  | false =>
    cases e with
    | acquireAsync k2 =>
      rw [step_acquire s t k2 hcr]
      cases hsv : s.cache k2 with
      | some sv => rw [acquireAsync_hit s t k2 sv hsv]; exact hb
      | none =>
        cases hp : s.inProgress k2 with
        | some l0 =>
          rw [acquireAsync_join s t k2 l0 hsv hp]
          exact barrierInv_updCoordinator s k k2 g i l0 l0.addWaiter hb hp rfl (Or.inl rfl)
        | none =>
          rw [acquireAsync_miss s t k2 hsv hp]
          exact barrierInv_create s k k2 g i t hb hp
    | invalidate k2 =>
      rw [step_invalidate s t k2 hcr]
      cases hp : s.inProgress k2 with
      | some l0 =>
        rw [invalidate_coordinator s t k2 l0 hp]
        exact barrierInv_of_eq
          (barrierInv_updCoordinator s k k2 g i l0
            (l0.invalidateAndCancelCurrentLookupRound t) hb hp rfl
            (Or.inr ⟨t, rfl, Nat.le_of_lt hi⟩))
          rfl rfl rfl
      | none =>
        rw [invalidate_noCoordinator s t k2 hp]
        exact barrierInv_of_eq hb rfl rfl rfl
    | insertOrAssignAndGet k2 v tw =>
      rw [step_insert s t k2 v tw hcr]
      cases hp : s.inProgress k2 with
      | some l0 =>
        rw [insertOrAssign_coordinator s t k2 v tw l0 hp]
        exact barrierInv_of_eq
          (barrierInv_updCoordinator s k k2 g i l0
            (l0.invalidateAndCancelCurrentLookupRound t) hb hp rfl
            (Or.inr ⟨t, rfl, Nat.le_of_lt hi⟩))
          rfl rfl rfl
      | none =>
        rw [insertOrAssign_noCoordinator s t k2 v tw hp]
        exact barrierInv_of_eq hb rfl rfl rfl
    | roundComplete k2 sw =>
      rw [step_round s t k2 sw hcr]
      cases hp : s.inProgress k2 with
      | none =>
        rw [doLookup_noCoordinator s t k2 sw hp]
        exact barrierInv_of_eq hb rfl rfl rfl
      | some l0 =>
        cases hc : isCancelationError sw with
        | false =>
          cases hv : l0.valid with
          | false =>
            rw [doLookup_retry s t k2 sw l0 hp hc hv]
            exact barrierInv_updCoordinator s k k2 g i l0 (l0.asyncLookupRound t) hb hp
              rfl (Or.inl rfl)
          | true =>
            rw [doLookup_finalize s t k2 sw l0 hp (Or.inr hv)]
            exact barrierInv_of_eq (barrierInv_finalize s k k2 g i t l0 sw h hb hp)
              rfl rfl rfl
        | true =>
          rw [doLookup_finalize s t k2 sw l0 hp (Or.inl hc)]
          exact barrierInv_of_eq (barrierInv_finalize s k k2 g i t l0 sw h hb hp)
            rfl rfl rfl

theorem barrier_runFrom (es : List (Event Key Value)) :
    ∀ (s : CacheState Key Value) (t : Nat) (k : Key) (g i : Nat), Inv s t → i < t →
      BarrierInv k g i s → BarrierInv k g i (runFrom s t es) := by
  induction es with
  | nil => intro s t k g i _ _ hb; exact hb
  | cons e es ih =>
    intro s t k g i h hi hb
    rw [runFrom]
    exact ih (step s t e) (t + 1) k g i (inv_step s t e h) (Nat.lt_succ_of_lt hi)
      (barrier_step s t e k g i h hi hb)

theorem runFrom_append (xs : List (Event Key Value)) :
    ∀ (ys : List (Event Key Value)) (s : CacheState Key Value) (t : Nat),
      runFrom s t (xs ++ ys) = runFrom (runFrom s t xs) (t + xs.length) ys := by
  induction xs with
  | nil => intro ys s t; simp [runFrom]
  | cons x xs ih =>
    intro ys s t
    rw [List.cons_append, runFrom, runFrom, ih]
    have harith : t + 1 + xs.length = t + (x :: xs).length := by
      simp [List.length_cons]
      omega
    rw [harith]

theorem run_append (xs ys : List (Event Key Value)) :
    run (xs ++ ys) = runFrom (run xs) xs.length ys := by
  rw [run, runFrom_append]
  simp [run]

theorem runFrom_of_crashed (es : List (Event Key Value)) :
    ∀ (s : CacheState Key Value) (t : Nat), s.crashed = true → runFrom s t es = s := by
  induction es with
  | nil => intro s t _; rfl
  | cons e es ih =>
    intro s t h
    rw [runFrom, step_crashed s t e h]
    exact ih s (t + 1) h

/-- Claim C1 (invalidation barrier): take any trace with a lookup for key k in flight (a
Coordinator l is on the in-progress map) at the moment invalidate(k) runs.  Then every
outcome subsequently delivered by signalWaiters to the waiters of that Coordinator
generation - those joined before and after the invalidation all hold futures on its one
shared promise - finalized a round scheduled strictly after the invalidation; the round in
flight at invalidation time was scheduled strictly before it, so its result is never the
one delivered. -/
theorem invalidation_barrier (pre post : List (Event Key Value)) (k : Key)
    (l : InProgressLookup Value) (hl : (run pre).inProgress k = some l) :
    (∀ e, e ∈ (run (pre ++ Event.invalidate k :: post)).signaled →
        e.key = k → e.genId = l.genId → e.delivered = true →
        pre.length < e.roundScheduledAt)
    ∧ (∀ tok, l.cancelToken = some tok → tok.scheduledAt < pre.length) := by
  have hinv : Inv (run pre) pre.length := inv_run pre
  have hfull : run (pre ++ Event.invalidate k :: post) =
      runFrom (step (run pre) pre.length (Event.invalidate k)) (pre.length + 1) post := by
    rw [run_append]
    rfl
  refine ⟨?_, ?_⟩
  · cases hcr : (run pre).crashed with
    | true =>
      rw [hfull, step_crashed _ _ _ hcr, runFrom_of_crashed post _ _ hcr]
      intro e he hekey hegen _
      exact absurd hegen (hinv.liveNotLogged k l e hl he hekey)
    | false =>
      rw [hfull, step_invalidate _ _ _ hcr, invalidate_coordinator _ _ _ l hl]
      have h2 : Inv
          { run pre with
              inProgress := upd (run pre).inProgress k
                (some (l.invalidateAndCancelCurrentLookupRound pre.length)),
              cache := upd (run pre).cache k none }
          (pre.length + 1) :=
        inv_of_eq (inv_upd_invalidate (run pre) pre.length k l hinv hl) rfl rfl rfl
      have hbar0 : BarrierInv k l.genId pre.length
          { run pre with
              inProgress := upd (run pre).inProgress k
                (some (l.invalidateAndCancelCurrentLookupRound pre.length)),
              cache := upd (run pre).cache k none } := by
        left
        refine ⟨⟨l.invalidateAndCancelCurrentLookupRound pre.length, by simp [upd], rfl,
          pre.length, rfl, Nat.le_refl _⟩, ?_⟩
        intro e he hekey
        exact hinv.liveNotLogged k l e hl he hekey
      have hbar := barrier_runFrom post _ (pre.length + 1) k l.genId pre.length h2
        (Nat.lt_succ_self _) hbar0
      intro e he hekey hegen hedel
      rcases hbar with ⟨⟨l2, _, _⟩, hlog⟩ | ⟨_, _, hlog⟩
      · exact absurd hegen (hlog e he hekey)
      · exact hlog e he hekey hegen hedel
  · intro tok htok
    exact hinv.stampsTok k l tok hl htok

/-! ### Concrete witnesses -/

/-- Witness for the invalidation barrier at a concrete trace: key 0 acquired (round
scheduled at time 0), invalidated at time 1 while that round is in flight, the stale
result discarded at time 2 (fresh round scheduled), fresh value delivered at time 3: the
logged delivery finalized the round scheduled at time 2 > 1. -/
theorem invalidation_barrier_witness :
    ((run [Event.acquireAsync 0] : CacheState Nat Nat).inProgress 0 =
        some (startedLookup 0 0))
    ∧ (∀ e, e ∈ (run ([Event.acquireAsync 0] ++ Event.invalidate 0 ::
          [Event.roundComplete 0 (Except.ok (LookupResult.mk (some 5))),
           Event.roundComplete 0 (Except.ok (LookupResult.mk (some 6)))]) :
            CacheState Nat Nat).signaled →
        e.key = 0 → e.genId = (startedLookup 0 0 : InProgressLookup Nat).genId →
        e.delivered = true →
        ([Event.acquireAsync 0] : List (Event Nat Nat)).length < e.roundScheduledAt) :=
  ⟨by decide,
    (invalidation_barrier [Event.acquireAsync 0]
        [Event.roundComplete 0 (Except.ok (LookupResult.mk (some 5))),
         Event.roundComplete 0 (Except.ok (LookupResult.mk (some 6)))] 0
        (startedLookup 0 0) (by decide)).1⟩

theorem revalidation_loop_condition_witness :
    ((run [Event.acquireAsync 0] : CacheState Nat Nat).inProgress 0 =
        some (startedLookup 0 0))
    ∧ ((isCancelationError (Except.ok (LookupResult.mk (some 9))) = true ∨
          (startedLookup 0 0 : InProgressLookup Nat).valid = true) ↔
        (doLookupWhileNotValid (run [Event.acquireAsync 0] : CacheState Nat Nat) 5 0
            (Except.ok (LookupResult.mk (some 9)))).inProgress 0 = none) :=
  ⟨by decide,
    (revalidation_loop_condition (run [Event.acquireAsync 0]) 5 0
        (Except.ok (LookupResult.mk (some 9))) (startedLookup 0 0) (by decide)).1⟩

theorem lookup_failure_not_memoized_witness :
    ((run [Event.acquireAsync 0] : CacheState Nat Nat).inProgress 0 =
        some (startedLookup 0 0))
    ∧ (startedLookup 0 0 : InProgressLookup Nat).valid = true
    ∧ (run [Event.acquireAsync 0] : CacheState Nat Nat).cache 0 = none
    ∧ (run [Event.acquireAsync 0] : CacheState Nat Nat).crashed = false
    ∧ (acquireAsync (doLookupWhileNotValid (run [Event.acquireAsync 0] : CacheState Nat Nat)
          2 0 (Except.error { code := 99, cancelCategory := false })) 3 0).2 =
        AcquireResult.scheduled (run [Event.acquireAsync 0] : CacheState Nat Nat).nextGen :=
  ⟨by decide, by decide, by decide, by decide,
    (lookup_failure_not_memoized (run [Event.acquireAsync 0]) 2 3 0
        { code := 99, cancelCategory := false } (startedLookup 0 0)
        (by decide) (by decide) (by decide) (by decide)).2.2.2.2.2.2.2.1⟩

theorem lookup_not_found_not_memoized_witness :
    ((run [Event.acquireAsync 0] : CacheState Nat Nat).inProgress 0 =
        some (startedLookup 0 0))
    ∧ (startedLookup 0 0 : InProgressLookup Nat).valid = true
    ∧ (run [Event.acquireAsync 0] : CacheState Nat Nat).cache 0 = none
    ∧ (run [Event.acquireAsync 0] : CacheState Nat Nat).crashed = false
    ∧ (acquireAsync (doLookupWhileNotValid (run [Event.acquireAsync 0] : CacheState Nat Nat)
          2 0 (Except.ok (LookupResult.mk none))) 3 0).2 =
        AcquireResult.scheduled (run [Event.acquireAsync 0] : CacheState Nat Nat).nextGen :=
  ⟨by decide, by decide, by decide, by decide,
    (lookup_not_found_not_memoized (run [Event.acquireAsync 0]) 2 3 0 (startedLookup 0 0)
        (by decide) (by decide) (by decide) (by decide)).2.2.2.2.2.2.2.1⟩

theorem acquireAsync_dispatch_witness :
    (CacheState.start : CacheState Nat Nat).cache 0 = none
    ∧ (CacheState.start : CacheState Nat Nat).inProgress 0 = none
    ∧ (acquireAsync (CacheState.start : CacheState Nat Nat) 0 0).1.inProgress 0 =
        some (startedLookup (CacheState.start : CacheState Nat Nat).nextGen 0) :=
  ⟨by decide, by decide,
    ((acquireAsync_dispatch (CacheState.start : CacheState Nat Nat) 0 0).2.2
        (by decide) (by decide)).1⟩

theorem insertOrAssignAndGet_behavior_witness :
    ((run [Event.acquireAsync 0] : CacheState Nat Nat).inProgress 0 =
        some (startedLookup 0 0))
    ∧ (insertOrAssignAndGet (run [Event.acquireAsync 0] : CacheState Nat Nat)
          1 0 7 3).1.inProgress 0 =
        some ((startedLookup 0 0 : InProgressLookup Nat).invalidateAndCancelCurrentLookupRound 1) :=
  ⟨by decide,
    ((insertOrAssignAndGet_behavior (run [Event.acquireAsync 0]) 1 0 7 3).1
        (startedLookup 0 0) (by decide)).1⟩

theorem coordinator_valid_lifecycle_witness :
    ((run [Event.acquireAsync 0, Event.invalidate 0] : CacheState Nat Nat).inProgress 0 =
        some ((startedLookup 0 0 : InProgressLookup Nat).invalidateAndCancelCurrentLookupRound 1))
    ∧ ((step (run [Event.acquireAsync 0, Event.invalidate 0] : CacheState Nat Nat) 2
          (Event.roundComplete 0 (Except.ok (LookupResult.mk (some 5))))).inProgress 0 =
        some { valid := true, cancelToken := some { scheduledAt := 2, cancelRequested := false },
               sharedPromise := none, waiters := 1, genId := 0, lastInvalidate := some 1 })
    ∧ ((startedLookup 0 0 : InProgressLookup Nat).invalidateAndCancelCurrentLookupRound 1).valid
        = false
    ∧ ({ valid := true, cancelToken := some { scheduledAt := 2, cancelRequested := false },
         sharedPromise := none, waiters := 1, genId := 0,
         lastInvalidate := some 1 } : InProgressLookup Nat).valid = true
    ∧ ({ valid := true, cancelToken := some { scheduledAt := 2, cancelRequested := false },
         sharedPromise := none, waiters := 1, genId := 0,
         lastInvalidate := some 1 } : InProgressLookup Nat) =
        ((startedLookup 0 0 : InProgressLookup Nat).invalidateAndCancelCurrentLookupRound
            1).asyncLookupRound 2 :=
  ⟨by decide, by decide, by decide, by decide,
    (coordinator_valid_lifecycle 0 0 0 (InProgressLookup.create 0)
        (Except.ok (ValueHandle.empty : ValueHandle Nat))).2.2.2.2.2.2.2.2.2.2.2
      (run [Event.acquireAsync 0, Event.invalidate 0]) 2
      (Event.roundComplete 0 (Except.ok (LookupResult.mk (some 5)))) 0
      ((startedLookup 0 0).invalidateAndCancelCurrentLookupRound 1)
      { valid := true, cancelToken := some { scheduledAt := 2, cancelRequested := false },
        sharedPromise := none, waiters := 1, genId := 0, lastInvalidate := some 1 }
      (by decide) (by decide) (by decide) (by decide)⟩

end Mongo
